import Mathlib

/-!
# Verification of the hfdown transport-and-transfer engine

A shallow embedding of the core of the `hfdown` repository:

* `src/src/http_client.cpp`  — URL parsing, the HTTP/1.1 request loop
  (`HttpClient::Impl::perform_request`), `get_full` / `get` / `post`, and
  `HttpClient::download_file`;
* `src/src/http3_client.cpp` — `Http3Client::get` with its per-host protocol
  cache and Alt-Svc learning;
* `src/src/hf_client.cpp`    — `HuggingFaceClient::get_model_info`, the
  download planner (chunk splitting, skip-by-size) and the worker pool of
  `download_model`;
* `src/include/json.hpp`     — the recursive-descent JSON parser.

The network is abstracted by an oracle `wire : method → url → body →
Except HttpErrorInfo HttpResponse` standing for one socket exchange (connect,
write request, read status line / headers / body); the QUIC exchange of
`Http3Client` is likewise an oracle.  Everything else is translated from the
source, statement by statement.
-/

namespace Hfdown

/-- `HttpError` from `src/include/http_client.hpp` (lines 25–33).  Note that
the enum has no `ChecksumMismatch` member. -/
inductive HttpError where
  | NetworkError
  | InvalidUrl
  | FileWriteError
  | HttpStatusError
  | Timeout
  | ConnectionFailed
  | ProtocolError
deriving DecidableEq, Repr

/-- `HttpErrorInfo` from `src/include/http_client.hpp` (lines 35–39). -/
structure HttpErrorInfo where
  error : HttpError
  message : String
  statusCode : Nat := 0
deriving DecidableEq, Repr

/-- The response envelope assembled by `perform_request`
(`src/src/http_client.cpp` lines 115–157): status code, body, and the
`Location` / `Alt-Svc` header values it extracts; `protocol` as set at
line 116 resp. `http3_client.cpp` line 224. -/
structure HttpResponse where
  statusCode : Nat
  body : String
  location : String
  altSvc : String
  protocol : String
deriving DecidableEq, Repr

/-- The decimal value of a list of digit characters, as accumulated by
`std::from_chars`. -/
def natOfDigits (l : List Char) : Nat :=
  l.foldl (fun a c => a * 10 + (c.toNat - 48)) 0

/-- `std::from_chars` into a 16-bit integer with an already-initialised
default: the maximal digit prefix is parsed; if there are no digits, or the
value overflows 16 bits, the destination is left unchanged. -/
def fromCharsU16 (s : List Char) (dflt : Nat) : Nat :=
  let ds := s.takeWhile Char.isDigit
  if ds.isEmpty then dflt
  else if natOfDigits ds < 65536 then natOfDigits ds else dflt

/-- Index of the first occurrence of `c`, `std::string::find(char)`. -/
def findChar? (c : Char) : List Char → Option Nat
  | [] => none
  | x :: xs => if x = c then some 0 else (findChar? c xs).map (· + 1)

/-- `ParsedUrl` from `src/src/http_client.cpp` (lines 17–22). -/
structure ParsedUrl where
  host : String
  port : Nat
  path : String
  protocol : String
deriving DecidableEq, Repr

/-- `parse_url` from `src/src/http_client.cpp` (lines 24–55): strip an
`http://` or `https://` prefix (adjusting protocol and default port), split
host and path at the first `/`, then split a `:port` suffix off the host. -/
def parseUrlHC (url : String) : ParsedUrl :=
  let defaults : ParsedUrl := ⟨"", 443, "/", "https"⟩
  let chars := url.toList
  let (proto, port0, remaining) :=
    if "http://".toList.isPrefixOf chars then
      ("http", 80, chars.drop 7)
    else if "https://".toList.isPrefixOf chars then
      ("https", 443, chars.drop 8)
    else
      (defaults.protocol, defaults.port, chars)
  let (host0, path) :=
    match findChar? '/' remaining with
    | some i => (remaining.take i, String.mk (remaining.drop i))
    | none => (remaining, defaults.path)
  let (host, port) :=
    match findChar? ':' host0 with
    | some i => (String.mk (host0.take i), fromCharsU16 (host0.drop (i+1)) port0)
    | none => (String.mk host0, port0)
  ⟨host, port, path, proto⟩

/-- One socket exchange: the request's method, URL and body go out, a parsed
response envelope (or a transport error) comes back.  This oracle abstracts
`TlsSocket` connect/write/read plus the status-line and header parsing of
`perform_request`. -/
abbrev Wire : Type := String → String → String → Except HttpErrorInfo HttpResponse

/-- The redirect loop of `HttpClient::Impl::perform_request`
(`src/src/http_client.cpp` lines 71–229): up to 5 attempts
(`while (redirects < 5)`); each attempt parses the URL, rejects any
non-`https` scheme with `ProtocolError` "Only HTTPS supported" (lines 76–78)
before touching the socket, performs the exchange, and either follows a
`3xx + Location` redirect (lines 161–170, resolving a relative location
against the current host) or returns the response envelope as-is.  Falling
off the loop yields `NetworkError` "Too many redirects" (line 229). -/
def performRequestAux (wire : Wire) (method : String) (body : String) :
    Nat → String → Except HttpErrorInfo HttpResponse
  | 0, _ => .error ⟨.NetworkError, "Too many redirects", 0⟩
  | fuel + 1, url =>
    let p := parseUrlHC url
    if p.protocol ≠ "https" then
      .error ⟨.ProtocolError, "Only HTTPS supported", 0⟩
    else
      match wire method url body with
      | .error e => .error e
      | .ok r =>
        if 300 ≤ r.statusCode ∧ r.statusCode < 400 ∧ r.location ≠ "" then
          performRequestAux wire method body fuel
            (if "/".toList.isPrefixOf r.location.toList then "https://" ++ p.host ++ r.location
             else r.location)
        else .ok r

/-- `perform_request` entered with `redirects = 0`. -/
def performRequest (wire : Wire) (method url body : String) :
    Except HttpErrorInfo HttpResponse :=
  performRequestAux wire method body 5 url

/-- `HttpClient::get_full` (`src/src/http_client.cpp` lines 245–247): the
response envelope is returned as a success value whatever its status. -/
def getFull (wire : Wire) (url : String) : Except HttpErrorInfo HttpResponse :=
  performRequest wire "GET" url ""

/-- `HttpClient::get` (`src/src/http_client.cpp` lines 249–254): `get_full`,
then statuses `>= 400` are mapped to `HttpStatusError` carrying the code. -/
def httpGet (wire : Wire) (url : String) : Except HttpErrorInfo String :=
  match getFull wire url with
  | .error e => .error e
  | .ok r =>
    if 400 ≤ r.statusCode then
      .error ⟨.HttpStatusError, "HTTP Error " ++ toString r.statusCode, r.statusCode⟩
    else .ok r.body

/-- `HttpClient::post` (`src/src/http_client.cpp` lines 256–261): same
status mapping as `get`, over a POST exchange. -/
def httpPost (wire : Wire) (url body : String) : Except HttpErrorInfo String :=
  match performRequest wire "POST" url body with
  | .error e => .error e
  | .ok r =>
    if 400 ≤ r.statusCode then
      .error ⟨.HttpStatusError, "HTTP Error " ++ toString r.statusCode, r.statusCode⟩
    else .ok r.body

/-- Observable outcome of `HttpClient::download_file`: the returned status,
the `Range` header installed before the request (line 276), and the
`write_at` calls issued to the `AsyncFileWriter` as `(offset, data)` pairs
(line 285; the oracle delivers the body in a single callback, written at
`write_offset + resume_offset + 0`). -/
structure DlOut where
  result : Except HttpErrorInfo Unit
  rangeHeader : Option String
  fileWrites : List (Nat × String)
deriving Repr

/-- `HttpClient::download_file` (`src/src/http_client.cpp` lines 263–318).
If `resume_offset > 0` a header `Range: bytes=<resume_offset+write_offset>-`
is installed (lines 275–277).  The GET is performed with a body callback
writing each chunk at `write_offset + resume_offset + current_downloaded`
(line 285).  After the exchange the Range header is erased (line 311); the
result is an error for a transport failure or a status `>= 400`
(`HttpStatusError`, line 315) and success otherwise.  The
`expected_checksum` parameter is accepted (line 268) but never read: no
hash is computed and no comparison is made anywhere in the function. -/
def downloadFile (wire : Wire) (url : String) (resumeOffset : Nat)
    (expectedChecksum : String) (writeOffset : Nat) : DlOut :=
  let _ := expectedChecksum
  let rangeHeader :=
    if resumeOffset > 0 then
      some ("bytes=" ++ toString (resumeOffset + writeOffset) ++ "-")
    else none
  match performRequest wire "GET" url "" with
  | .error e => ⟨.error e, rangeHeader, []⟩
  | .ok r =>
    let writes := if r.body.isEmpty then [] else [(writeOffset + resumeOffset, r.body)]
    if 400 ≤ r.statusCode then
      ⟨.error ⟨.HttpStatusError, "HTTP Error " ++ toString r.statusCode, r.statusCode⟩,
        rangeHeader, writes⟩
    else ⟨.ok (), rangeHeader, writes⟩

/-- Index of the first occurrence of the substring `pat`,
`std::string::find(const char*)`. -/
def findSub? (pat : List Char) : List Char → Option Nat
  | [] => if pat.isEmpty then some 0 else none
  | x :: xs =>
    if pat.isPrefixOf (x :: xs) then some 0
    else (findSub? pat xs).map (· + 1)

/-- `s.find(pat) != std::string::npos`. -/
def containsSub (pat : String) (s : String) : Bool :=
  (findSub? pat.toList s.toList).isSome

/-- `Http3Client::parse_url` (`src/src/http3_client.cpp` lines 116–136):
`host_start` is just past `://` (or 0 if absent), the host part runs to the
next `/`, and a `:port` suffix is parsed by `std::from_chars` into a 16-bit
port defaulting to 443. -/
def parseUrlH3 (url : String) : String × Nat :=
  let chars := url.toList
  let hostStart :=
    match findSub? "://".toList chars with
    | some i => i + 3
    | none => 0
  let afterHost := chars.drop hostStart
  let hostPart :=
    match findChar? '/' afterHost with
    | some i => afterHost.take i
    | none => afterHost
  match findChar? ':' hostPart with
  | some i => (String.mk (hostPart.take i), fromCharsU16 (hostPart.drop (i+1)) 443)
  | none => (String.mk hostPart, 443)

/-- The per-host protocol cache `protocol_cache_`
(`src/include/http3_client.hpp` lines 54–55), a `std::map<std::string,
std::string>` modelled as an association list with unique keys. -/
abbrev Cache : Type := List (String × String)

/-- `protocol_cache_.find(host)`. -/
def cacheGet (c : Cache) (host : String) : Option String :=
  match c.find? (fun p => p.1 == host) with
  | some p => some p.2
  | none => none

/-- `protocol_cache_.erase(host)` (`src/src/http3_client.cpp` line 162). -/
def cacheErase (c : Cache) (host : String) : Cache :=
  c.filter (fun p => p.1 ≠ host)

/-- `protocol_cache_[host] = value` (`src/src/http3_client.cpp` line 172):
insert-or-assign. -/
def cacheSet (c : Cache) (host value : String) : Cache :=
  cacheErase c host ++ [(host, value)]

/-- The raw result of one QUIC/H3 exchange (`QuicSocket::connect` +
`send_headers` + `get_response`), abstracted as an oracle value: either a
transport-level error (`ConnectionFailed` for a failed connect,
`NetworkError` for a failed send or receive, `src/src/http3_client.cpp`
lines 193–218) or a status code with a body. -/
structure H3Raw where
  status : Nat
  body : String
deriving DecidableEq, Repr

/-- `Http3Client::try_http3` (`src/src/http3_client.cpp` lines 182–231):
on a successful exchange the response gets `protocol = "h3"`, and a status
`>= 400` is mapped to `HttpStatusError` (lines 226–228). -/
def tryHttp3 (h3res : Except HttpErrorInfo H3Raw) :
    Except HttpErrorInfo HttpResponse :=
  match h3res with
  | .error e => .error e
  | .ok raw =>
    if 400 ≤ raw.status then
      .error ⟨.HttpStatusError, "HTTP Error " ++ toString raw.status, raw.status⟩
    else .ok ⟨raw.status, raw.body, "", "", "h3"⟩

/-- `Http3Client::try_http2` (`src/src/http3_client.cpp` lines 233–244):
headers are copied to the fallback client and `get_full` performs the
exchange; no status mapping is applied here. -/
def tryHttp2 (wire : Wire) (url : String) : Except HttpErrorInfo HttpResponse :=
  getFull wire url

/-- `Http3Client::try_http1` (`src/src/http3_client.cpp` lines 246–256):
identical shape to `try_http2`, delegating to `get_full`. -/
def tryHttp1 (wire : Wire) (url : String) : Except HttpErrorInfo HttpResponse :=
  getFull wire url

/-- Result of one `Http3Client::get`: the response (or error), the protocol
cache afterwards, and — as pure instrumentation for the statements below —
the list of protocols attempted, in order. -/
structure GetOut where
  result : Except HttpErrorInfo HttpResponse
  cache : Cache
  attempts : List String

/-- The tail of `Http3Client::get` from the `try_http1` call on
(`src/src/http3_client.cpp` lines 167–179): if the H1/H2 attempt succeeds
and its non-empty `Alt-Svc` value contains `"h3"`, write `host → h3` into
the cache (lines 170–174); then a status `>= 400` becomes `HttpStatusError`
(lines 175–177); otherwise the response is returned. -/
def h1Phase (wire : Wire) (url : String) (c : Cache) (host : String)
    (att : List String) : GetOut :=
  match tryHttp1 wire url with
  | .error e => ⟨.error e, c, att⟩
  | .ok r =>
    let c' := if r.altSvc ≠ "" ∧ containsSub "h3" r.altSvc then cacheSet c host "h3" else c
    if 400 ≤ r.statusCode then
      ⟨.error ⟨.HttpStatusError, "HTTP Error " ++ toString r.statusCode, r.statusCode⟩,
        c', att⟩
    else ⟨.ok r, c', att⟩

/-- `Http3Client::get` (`src/src/http3_client.cpp` lines 138–180).
`http://` URLs go straight to `try_http2` (lines 141–144); a forced
protocol is used unconditionally (lines 146–151); else a cache entry `h3`
for the host triggers an H3 attempt whose failure erases the entry
(lines 153–165) and falls through to the `try_http1` phase. -/
def h3get (wire : Wire) (h3res : Except HttpErrorInfo H3Raw) (forced : String)
    (c : Cache) (url : String) : GetOut :=
  let host := (parseUrlH3 url).1
  if "http://".toList.isPrefixOf url.toList then ⟨tryHttp2 wire url, c, ["h2"]⟩
  else if forced = "h3" then ⟨tryHttp3 h3res, c, ["h3"]⟩
  else if forced = "h2" then ⟨tryHttp2 wire url, c, ["h2"]⟩
  else if forced ≠ "" then ⟨tryHttp1 wire url, c, ["h1"]⟩
  else if cacheGet c host = some "h3" then
    match tryHttp3 h3res with
    | .ok r => ⟨.ok r, c, ["h3"]⟩
    | .error _ => h1Phase wire url (cacheErase c host) host ["h3", "h1"]
  else h1Phase wire url c host ["h1"]

/-! ## The JSON parser of `src/include/json.hpp`

The parser is a recursive-descent scanner over a `std::string_view` with a
cursor; `peek()` returns `'\0'` at the end of input and `next()` then does
not advance.  Exceptions (`throw std::runtime_error`) become the `.error`
side of `Except String`.  Numbers are parsed by `std::stod` into a `double`
and later cast to `size_t`; the integer tokens the registry emits are exact
in a double, so the numeric value is modelled as the sign and integer part
of the literal (the fractional and exponent parts are consumed and, for the
integer listings at hand, do not contribute). -/

/-- `json::Value` (`src/include/json.hpp` lines 26–73), with `Number`
carried as the truncated integer value of the literal (see above). -/
inductive JValue where
  | null
  | bool (b : Bool)
  | num (n : Int)
  | str (s : String)
  | arr (elems : List JValue)
  | obj (fields : List (String × JValue))

/-- `obj[key] = value` on a `std::map`: insert or assign. -/
def jInsert (fields : List (String × JValue)) (key : String) (v : JValue) :
    List (String × JValue) :=
  fields.filter (fun p => p.1 ≠ key) ++ [(key, v)]

/-- `Value::operator[](const std::string&)` (`src/include/json.hpp`
lines 56–62): a static null when the value is not an object or the key is
absent. -/
def jLookup (v : JValue) (key : String) : JValue :=
  match v with
  | .obj fields =>
    match fields.find? (fun p => p.1 == key) with
    | some p => p.2
    | none => .null
  | _ => .null

def JValue.isString : JValue → Bool
  | .str _ => true
  | _ => false

def JValue.isNumber : JValue → Bool
  | .num _ => true
  | _ => false

def JValue.isObject : JValue → Bool
  | .obj _ => true
  | _ => false

def JValue.isArrayV : JValue → Bool
  | .arr _ => true
  | _ => false

/-- `as_string` under an `is_string` guard. -/
def JValue.asString : JValue → String
  | .str s => s
  | _ => ""

/-- `static_cast<size_t>(as_number())` under an `is_number` guard (negative
values are not exercised by any input considered here). -/
def JValue.asSize : JValue → Nat
  | .num n => n.toNat
  | _ => 0

/-- `skip_whitespace` (`src/include/json.hpp` lines 88–92), via
`std::isspace`. -/
def skipWs (l : List Char) : List Char :=
  l.dropWhile (fun c => c = ' ' ∨ c = '\t' ∨ c = '\n' ∨ c = '\r' ∨
    c = Char.ofNat 11 ∨ c = Char.ofNat 12)

/-- The string-body loop of `parse_string` (`src/include/json.hpp`
lines 168–187): consume until an unescaped `"` or the end of input,
decoding the eight escapes (any other escaped character is kept as-is; an
escape at the end of input yields `next() = '\0'` appended verbatim). -/
def parseStringBody : List Char → String → String × List Char
  | [], acc => (acc, [])
  | '"' :: rest, acc => (acc, '"' :: rest)
  | '\\' :: [], acc => (acc.push (Char.ofNat 0), [])
  | '\\' :: c :: rest, acc =>
    let d : Char :=
      if c = '"' then '"'
      else if c = '\\' then '\\'
      else if c = '/' then '/'
      else if c = 'b' then Char.ofNat 8
      else if c = 'f' then Char.ofNat 12
      else if c = 'n' then '\n'
      else if c = 'r' then '\r'
      else if c = 't' then '\t'
      else c
    parseStringBody rest (acc.push d)
  | c :: rest, acc => parseStringBody rest (acc.push c)

/-- `parse_string` (`src/include/json.hpp` lines 165–191): an opening `"`,
the body loop, then a closing `"` — a missing quote throws
`Expected '"'`. -/
def parseJString (l : List Char) : Except String (String × List Char) :=
  match l with
  | '"' :: rest =>
    let (s, rest') := parseStringBody rest ""
    match rest' with
    | '"' :: rest'' => .ok (s, rest'')
    | _ => .error "Expected \x27\"\x27"
  | _ => .error "Expected \x27\"\x27"

/-- `parse_number` (`src/include/json.hpp` lines 144–163): optional sign,
digits, optional fraction and exponent; the collected token goes through
`std::stod`, which throws if the token has no digits at all (e.g. `"-"`).
The value retained is the sign and integer part (see the section note). -/
def parseJNumber (l : List Char) : Except String (JValue × List Char) :=
  let (neg, l1) := if l.head? = some '-' then (true, l.drop 1) else (false, l)
  let intDigits := l1.takeWhile Char.isDigit
  let l2 := l1.drop intDigits.length
  let (fracDigits, l3) :=
    if l2.head? = some '.' then
      let f := (l2.drop 1).takeWhile Char.isDigit
      (f, (l2.drop 1).drop f.length)
    else ([], l2)
  let l4 :=
    if l3.head? = some 'e' ∨ l3.head? = some 'E' then
      let l5 := l3.drop 1
      let l6 := if l5.head? = some '+' ∨ l5.head? = some '-' then l5.drop 1 else l5
      l6.drop ((l6.takeWhile Char.isDigit).length)
    else l3
  if intDigits.isEmpty ∧ fracDigits.isEmpty then .error "stod"
  else
    let v : Int := if neg then -(natOfDigits intDigits : Int) else (natOfDigits intDigits : Int)
    .ok (.num v, l4)

/-- The three recursion sites of the C++ parser, folded into one function
so the recursion is structural on a fuel argument: `value` is
`parse_value`, `arrLoop` the element loop of `parse_array` (entered past
the opening bracket with the elements so far), `objLoop` the member loop of
`parse_object` (entered past the opening brace with the members so far). -/
inductive ParseCall where
  | value (l : List Char)
  | arrLoop (l : List Char) (acc : List JValue)
  | objLoop (l : List Char) (acc : List (String × JValue))

/-- `parse_value` / `parse_null` / `parse_bool` / `parse_array` /
`parse_object` (`src/include/json.hpp` lines 110–242).  The fuel stands in
for the cursor progress that makes the C++ recursion terminate; the
`jsonParse` wrapper supplies fuel ample for any terminating C++ run.
Dispatch is on the peeked character; anything unrecognised throws
`Invalid JSON`. -/
def parseMain : Nat → ParseCall → Except String (JValue × List Char)
  | 0, _ => .error "Invalid JSON"
  | fuel + 1, .value l =>
    let l := skipWs l
    match l.head? with
    | some 'n' =>
      if "null".toList.isPrefixOf l then .ok (.null, l.drop 4)
      else .error "Invalid null"
    | some 't' =>
      if "true".toList.isPrefixOf l then .ok (.bool true, l.drop 4)
      else .error "Invalid boolean"
    | some 'f' =>
      if "false".toList.isPrefixOf l then .ok (.bool false, l.drop 5)
      else .error "Invalid boolean"
    | some '"' => (parseJString l).map (fun p => (.str p.1, p.2))
    | some '[' =>
      match skipWs (l.drop 1) with
      | ']' :: rest => .ok (.arr [], rest)
      | l' => parseMain fuel (.arrLoop l' [])
    | some c =>
      if c = '\x7b' then
        match skipWs (l.drop 1) with
        | '\x7d' :: rest => .ok (.obj [], rest)
        | l' => parseMain fuel (.objLoop l' [])
      else if c = '-' ∨ c.isDigit then parseJNumber l
      else .error "Invalid JSON"
    | none => .error "Invalid JSON"
  | fuel + 1, .arrLoop l acc =>
    match parseMain fuel (.value l) with
    | .error e => .error e
    | .ok (v, rest) =>
      match skipWs rest with
      | ']' :: rest' => .ok (.arr (acc ++ [v]), rest')
      | ',' :: rest' => parseMain fuel (.arrLoop rest' (acc ++ [v]))
      | _ => .error "Expected \x27,\x27 or \x27]\x27"
  | fuel + 1, .objLoop l acc =>
    match parseJString (skipWs l) with
    | .error e => .error e
    | .ok (key, rest) =>
      match skipWs rest with
      | ':' :: rest' =>
        match parseMain fuel (.value rest') with
        | .error e => .error e
        | .ok (v, rest'') =>
          let acc' := jInsert acc key v
          match skipWs rest'' with
          | '\x7d' :: rest3 => .ok (.obj acc', rest3)
          | ',' :: rest3 => parseMain fuel (.objLoop rest3 acc')
          | _ => .error "Expected \x27,\x27 or \x27\x7d\x27"
      | _ => .error "Expected \x27:\x27"

/-- `json::parse` (`src/include/json.hpp` lines 77–80 and 245–247): one
`parse_value` on the input; trailing characters are ignored.  The fuel
`2 * length + 2` dominates the C++ call depth, which advances the cursor at
least one character every other nested call. -/
def jsonParse (s : String) : Except String JValue :=
  (parseMain (2 * s.length + 2) (.value s.toList)).map (·.1)

/-! ## The HuggingFace client of `src/src/hf_client.cpp` -/

/-- `ModelFile` from `src/include/hf_client.hpp` (lines 11–15); `oid`
defaults to the empty string. -/
structure ModelFile where
  filename : String
  size : Nat
  oid : String := ""
deriving DecidableEq, Repr

/-- `ModelInfo` from `src/include/hf_client.hpp` (lines 17–20). -/
structure ModelInfo where
  modelId : String
  files : List ModelFile
deriving DecidableEq, Repr

/-- `HFError` from `src/include/hf_client.hpp` (lines 22–28). -/
inductive HFError where
  | ModelNotFound
  | NetworkError
  | ParseError
  | InvalidModelId
  | AuthRequired
deriving DecidableEq, Repr

/-- `HFErrorInfo` from `src/include/hf_client.hpp` (lines 30–33). -/
structure HFErrorInfo where
  error : HFError
  message : String
deriving DecidableEq, Repr

/-- `HuggingFaceClient::get_api_url` (`src/src/hf_client.cpp` lines 26–29),
with the mirror disabled (the default). -/
def apiUrl (modelId : String) : String :=
  "https://huggingface.co/api/models/" ++ modelId ++ "/tree/main?recursive=true"

/-- `HuggingFaceClient::get_file_url` (`src/src/hf_client.cpp`
lines 31–35), with the mirror disabled. -/
def fileUrl (modelId filename : String) : String :=
  "https://huggingface.co/" ++ modelId ++ "/resolve/main/" ++ filename

/-- The extraction loop of `get_model_info` (`src/src/hf_client.cpp`
lines 63–87): for each array item with `type == "file"` and a string
`path`, emit a `ModelFile` whose size is the numeric `size` (0 when
absent or non-numeric) and whose oid is `lfs.oid` when `lfs` is an object
with a string `oid`. -/
def extractFiles (v : JValue) : List ModelFile :=
  match v with
  | .arr items =>
    items.foldl (fun acc item =>
      if (jLookup item "type").isString ∧ (jLookup item "type").asString = "file" then
        if (jLookup item "path").isString then
          let size := if (jLookup item "size").isNumber then (jLookup item "size").asSize else 0
          let oid :=
            if (jLookup item "lfs").isObject ∧ (jLookup (jLookup item "lfs") "oid").isString then
              (jLookup (jLookup item "lfs") "oid").asString
            else ""
          acc ++ [⟨(jLookup item "path").asString, size, oid⟩]
        else acc
      else acc) []
  | _ => []

/-- `HuggingFaceClient::get_model_info` (`src/src/hf_client.cpp`
lines 37–97).  A failed metadata GET is remapped: status 404 becomes
`ModelNotFound` with message `Model '<id>' not found`; every other failure
becomes `NetworkError` carrying the underlying message (lines 42–54).  On
success the body is parsed; an exception from the parser is caught and
returned as `ParseError` with message
`Failed to parse model info: <what>` (lines 91–96). -/
def getModelInfo (wire : Wire) (modelId : String) :
    Except HFErrorInfo ModelInfo :=
  match httpGet wire (apiUrl modelId) with
  | .error err =>
    if err.statusCode = 404 then
      .error ⟨.ModelNotFound, "Model \x27" ++ modelId ++ "\x27 not found"⟩
    else
      .error ⟨.NetworkError, err.message⟩
  | .ok body =>
    match jsonParse body with
    | .error e => .error ⟨.ParseError, "Failed to parse model info: " ++ e⟩
    | .ok v => .ok ⟨modelId, extractFiles v⟩

/-! ## The download planner of `HuggingFaceClient::download_model`
(`src/src/hf_client.cpp` lines 131–353) -/

/-- `CHUNK_THRESHOLD` (`src/src/hf_client.cpp` line 247): 250 MiB. -/
def CHUNK_THRESHOLD : Nat := 250 * 1024 * 1024

/-- `CHUNK_SIZE` (`src/src/hf_client.cpp` line 248): 100 MiB. -/
def CHUNK_SIZE : Nat := 100 * 1024 * 1024

/-- `DownloadTask` (`src/src/hf_client.cpp` lines 237–242); `range_end = 0`
means "rest of file" (a whole-file task). -/
structure DLTask where
  file : ModelFile
  rangeStart : Nat
  rangeEnd : Nat
  chunkSize : Nat
deriving DecidableEq, Repr

/-- One iteration of the chunk loop (`src/src/hf_client.cpp` lines
251–254): `end = min(start + CHUNK_SIZE - 1, file.size - 1)` and the task
is `{file, start, end, end - start + 1}`. -/
def mkChunk (f : ModelFile) (start : Nat) : DLTask :=
  ⟨f, start, min (start + CHUNK_SIZE - 1) (f.size - 1),
    min (start + CHUNK_SIZE - 1) (f.size - 1) - start + 1⟩

/-- The chunk loop `for (start = 0; start < size; start += CHUNK_SIZE)`
(`src/src/hf_client.cpp` lines 251–254), written with a structural fuel
that dominates the iteration count (the loop advances `start` by
`CHUNK_SIZE ≥ 1` each round, so `f.size` rounds always suffice). -/
def chunkLoopFuel : Nat → ModelFile → Nat → List DLTask
  | 0, _, _ => []
  | fuel + 1, f, start =>
    if start < f.size then mkChunk f start :: chunkLoopFuel fuel f (start + CHUNK_SIZE)
    else []

/-- Task production for one file (`src/src/hf_client.cpp` lines 245–258):
sizes strictly above the threshold are split into chunks; otherwise a
single whole-file task `{file, 0, 0, file.size}` is queued. -/
def planFile (f : ModelFile) : List DLTask :=
  if f.size > CHUNK_THRESHOLD then chunkLoopFuel f.size f 0
  else [⟨f, 0, 0, f.size⟩]

/-- The per-task dispatch arguments of the worker body
(`src/src/hf_client.cpp` lines 306–319): a `Range:
bytes=<start>-<end>` header when `range_end > 0`, and the
`download_file` call `(url, path, callback, 0, "", task.range_start)` —
resume offset 0, empty expected checksum, write offset = `range_start`. -/
structure Dispatch where
  rangeHeader : Option String
  resumeOffset : Nat
  expected : String
  writeOffset : Nat
deriving DecidableEq, Repr

def dispatchTask (t : DLTask) : Dispatch :=
  ⟨if t.rangeEnd > 0 then
      some ("bytes=" ++ toString t.rangeStart ++ "-" ++ toString t.rangeEnd)
    else none,
    0, "", t.rangeStart⟩

/-- The descending-size sort of `download_model`
(`src/src/hf_client.cpp` lines 153–158), as an insertion sort with the
comparator `a.size > b.size`. -/
def insertDesc (x : ModelFile) : List ModelFile → List ModelFile
  | [] => [x]
  | y :: ys => if x.size > y.size then x :: y :: ys else y :: insertDesc x ys

def sortFilesDesc : List ModelFile → List ModelFile
  | [] => []
  | x :: xs => insertDesc x (sortFilesDesc xs)

/-- The local file system as seen by the planner: for a path, `none` when
`std::filesystem::exists` is false, `some n` for an existing file of size
`n`. -/
abbrev LocalFs : Type := String → Option Nat

/-- The partition of `download_model` (`src/src/hf_client.cpp` lines
160–175): a file whose destination exists with exactly the listed size
goes to `already_downloaded`, everything else to `files_to_download`
(first component). -/
def splitFiles (fs : LocalFs) : List ModelFile → List ModelFile × List ModelFile
  | [] => ([], [])
  | f :: rest =>
    let (dl, al) := splitFiles fs rest
    if fs f.filename = some f.size then (dl, f :: al) else (f :: dl, al)

/-- The outcome of the planning phase of `download_model`: the partition,
the task queue (tasks of the to-download files in order, lines 244–259),
the initial value of `total_downloaded_bytes` (lines 222–225: the bytes of
already-satisfied files) and `total_bytes` (lines 217–220). -/
structure Plan where
  toDownload : List ModelFile
  already : List ModelFile
  queue : List DLTask
  alreadyBytes : Nat
  totalBytes : Nat
deriving DecidableEq, Repr

def planModel (fs : LocalFs) (files : List ModelFile) : Plan :=
  let sorted := sortFilesDesc files
  let (dl, al) := splitFiles fs sorted
  { toDownload := dl
    already := al
    queue := (dl.map planFile).flatten
    alreadyBytes := (al.map (·.size)).sum
    totalBytes := (sorted.map (·.size)).sum }

/-- Bytes the queued tasks will transfer (each task covers `chunkSize`
bytes of its file). -/
def queuedBytes (p : Plan) : Nat := (p.queue.map (·.chunkSize)).sum

/-- The `write_at` calls a run of the queue would issue: each dequeued task
reaches `download_file` (`src/src/hf_client.cpp` line 319) whose writes are
recorded by `downloadFile`; an empty queue therefore issues none. -/
def runWrites (wire : Wire) (modelId : String) (p : Plan) : List (Nat × String) :=
  (p.queue.map (fun t =>
    (downloadFile wire (fileUrl modelId t.file.filename) 0 "" t.rangeStart).fileWrites)).flatten

/-- The local file system after a successful `download_model` run against a
listing: every listed file is present at its listed size (the planner
pre-allocates each destination to `file.size`, lines 191–214, and a
successful run completes every transfer); other paths are untouched. -/
def afterRun (fs : LocalFs) (files : List ModelFile) : LocalFs :=
  fun p =>
    match files.find? (fun f => f.filename == p) with
    | some f => some f.size
    | none => fs p

/-! ## The worker pool of `download_model`
(`src/src/hf_client.cpp` lines 222–352)

An interleaving model of the worker lambda (lines 264–330) and the final
status accounting (lines 344–352).  Each worker, under the queue mutex,
either dequeues the front task when the queue is non-empty and the error
flag is clear, or returns (lines 267–274).  A finished task either
succeeds (loop again) or fails: the failing worker performs
`has_error.compare_exchange_strong(false, true)` and, on winning, records
`first_error` under `error_mutex`, then returns either way
(lines 321–328).  The outcome of each task is an oracle
`out : DLTask → Option String` (`none` = success, `some msg` = the failure
message). -/

/-- A worker is between tasks (`idle`), executing a task, or returned. -/
inductive WStatus where
  | idle
  | running (t : DLTask)
  | done
deriving DecidableEq, Repr

/-- The shared state of the pool: the task queue, the atomic `has_error`
flag, the `first_error` record (`none` while unset), and the workers. -/
structure PoolState where
  queue : List DLTask
  hasError : Bool
  firstError : Option String
  workers : List WStatus
deriving DecidableEq, Repr

/-- The pool as launched (lines 222–239, 332–339): the planned queue,
`has_error = false`, no recorded error, all workers idle. -/
def initPool (queue : List DLTask) (n : Nat) : PoolState :=
  ⟨queue, false, none, List.replicate n .idle⟩

/-- One scheduler-visible transition of the pool. -/
inductive PoolStep (out : DLTask → Option String) : PoolState → PoolState → Prop where
  /-- Lines 267–274 (the non-returning branch): under the queue mutex the
  worker sees a non-empty queue and a clear flag and pops the front. -/
  | dequeue (s : PoolState) (i : Fin s.workers.length) (t : DLTask) (rest : List DLTask) :
      s.workers.get i = .idle → s.hasError = false → s.queue = t :: rest →
      PoolStep out s ⟨rest, s.hasError, s.firstError, s.workers.set i (.running t)⟩
  /-- Lines 269–271 with an empty queue: the worker returns. -/
  | exitEmpty (s : PoolState) (i : Fin s.workers.length) :
      s.workers.get i = .idle → s.queue = [] →
      PoolStep out s ⟨s.queue, s.hasError, s.firstError, s.workers.set i .done⟩
  /-- Lines 269–271 with the flag set: the worker returns. -/
  | exitFlag (s : PoolState) (i : Fin s.workers.length) :
      s.workers.get i = .idle → s.hasError = true →
      PoolStep out s ⟨s.queue, s.hasError, s.firstError, s.workers.set i .done⟩
  /-- Line 329: the task succeeded; the worker loops for the next one. -/
  | finishOk (s : PoolState) (i : Fin s.workers.length) (t : DLTask) :
      s.workers.get i = .running t → out t = none →
      PoolStep out s ⟨s.queue, s.hasError, s.firstError, s.workers.set i .idle⟩
  /-- Lines 321–327, CAS succeeds: the flag flips and `first_error` is
  recorded with this task's message; the worker returns. -/
  | finishFailWin (s : PoolState) (i : Fin s.workers.length) (t : DLTask) (msg : String) :
      s.workers.get i = .running t → out t = some msg → s.hasError = false →
      PoolStep out s ⟨s.queue, true, some msg, s.workers.set i .done⟩
  /-- Lines 321–327, CAS fails (flag already set): `first_error` is left
  alone; the worker returns. -/
  | finishFailLose (s : PoolState) (i : Fin s.workers.length) (t : DLTask) (msg : String) :
      s.workers.get i = .running t → out t = some msg → s.hasError = true →
      PoolStep out s ⟨s.queue, s.hasError, s.firstError, s.workers.set i .done⟩

/-- Reachability of a pool state along any interleaving. -/
def PoolReach (out : DLTask → Option String) (init s : PoolState) : Prop :=
  Relation.ReflTransGen (PoolStep out) init s

/-- The final status computation (`src/src/hf_client.cpp` lines 344–352):
`first_error` if the flag is set, success otherwise (the initial
`first_error` value at line 234 carries an empty message, hence the
default). -/
def finalResult (s : PoolState) : Except String Unit :=
  if s.hasError then .error (s.firstError.getD "") else .ok ()

/-! ## SHA-256

Modelled from the spec: the download path is specified to verify a
whole-file task against the SHA-256 hex digest of its delivered bytes
(spec §4.6); the source computes this digest only in auxiliary tools
(`src/src/rsync_client.cpp` lines 19–39, `src/src/tests/test_checksum.cpp`)
via OpenSSL, and `HttpClient::download_file` never computes it at all, so
the reference function below follows FIPS 180-4 over byte lists, with
32-bit words as `Nat` reduced mod `2^32`. -/

def w32 (x : Nat) : Nat := x % 4294967296

def rotr32 (n x : Nat) : Nat := w32 ((x >>> n) ||| (x <<< (32 - n)))

def sha256K : List Nat :=
  [1116352408, 1899447441, 3049323471, 3921009573, 961987163,
   1508970993, 2453635748, 2870763221, 3624381080, 310598401,
   607225278, 1426881987, 1925078388, 2162078206, 2614888103,
   3248222580, 3835390401, 4022224774, 264347078, 604807628,
   770255983, 1249150122, 1555081692, 1996064986, 2554220882,
   2821834349, 2952996808, 3210313671, 3336571891, 3584528711,
   113926993, 338241895, 666307205, 773529912, 1294757372,
   1396182291, 1695183700, 1986661051, 2177026350, 2456956037,
   2730485921, 2820302411, 3259730800, 3345764771, 3516065817,
   3600352804, 4094571909, 275423344, 430227734, 506948616,
   659060556, 883997877, 958139571, 1322822218, 1537002063,
   1747873779, 1955562222, 2024104815, 2227730452, 2361852424,
   2428436474, 2756734187, 3204031479, 3329325298]

def sha256Init : List Nat :=
  [1779033703, 3144134277, 1013904242, 2773480762,
   1359893119, 2600822924, 528734635, 1541459225]

/-- FIPS 180-4 padding: `0x80`, zeros to 56 mod 64, then the bit length as
eight big-endian bytes. -/
def sha256Pad (msg : List Nat) : List Nat :=
  let len := msg.length
  let k := (119 - len % 64) % 64
  let bitLen := len * 8
  msg ++ [0x80] ++ List.replicate k 0 ++
    [w32 (bitLen >>> 56) % 256, (bitLen >>> 48) % 256, (bitLen >>> 40) % 256,
     (bitLen >>> 32) % 256, (bitLen >>> 24) % 256, (bitLen >>> 16) % 256,
     (bitLen >>> 8) % 256, bitLen % 256]

/-- Big-endian 32-bit words from bytes. -/
def bytesToWords : List Nat → List Nat
  | b0 :: b1 :: b2 :: b3 :: rest =>
    (b0 <<< 24 ||| b1 <<< 16 ||| b2 <<< 8 ||| b3) :: bytesToWords rest
  | _ => []

def smallSigma0 (x : Nat) : Nat := rotr32 7 x ^^^ rotr32 18 x ^^^ (x >>> 3)
def smallSigma1 (x : Nat) : Nat := rotr32 17 x ^^^ rotr32 19 x ^^^ (x >>> 10)
def bigSigma0 (x : Nat) : Nat := rotr32 2 x ^^^ rotr32 13 x ^^^ rotr32 22 x
def bigSigma1 (x : Nat) : Nat := rotr32 6 x ^^^ rotr32 11 x ^^^ rotr32 25 x

/-- Message-schedule extension from 16 to 64 words. -/
def sha256Extend (w : List Nat) : Nat → List Nat
  | 0 => w
  | n + 1 =>
    let w' := sha256Extend w n
    let i := w'.length
    w' ++ [w32 ((w'.getD (i - 16) 0) + smallSigma0 (w'.getD (i - 15) 0) +
      (w'.getD (i - 7) 0) + smallSigma1 (w'.getD (i - 2) 0))]

/-- One round of the compression function over the state
`[a,b,c,d,e,f,g,h]`. -/
def sha256Round (st : List Nat) (kw : Nat) : List Nat :=
  match st with
  | [a, b, c, d, e, f, g, h] =>
    let ch := (e &&& f) ^^^ ((4294967295 - e) &&& g)
    let maj := (a &&& b) ^^^ (a &&& c) ^^^ (b &&& c)
    let t1 := w32 (h + bigSigma1 e + ch + kw)
    let t2 := w32 (bigSigma0 a + maj)
    [w32 (t1 + t2), a, b, c, w32 (d + t1), e, f, g]
  | other => other

/-- Compression of one 64-byte block into the running hash state. -/
def sha256Block (h : List Nat) (block : List Nat) : List Nat :=
  let w := sha256Extend (bytesToWords block) 48
  let st := (List.zip (sha256K.map (fun k => w32 k)) w).foldl
    (fun st p => sha256Round st (w32 (p.1 + p.2))) h
  (List.zip h st).map (fun p => w32 (p.1 + p.2))

/-- Split into 64-byte blocks; the fuel (one unit per block, amply covered
by the byte count) keeps the recursion structural. -/
def sha256ChunksFuel : Nat → List Nat → List (List Nat)
  | 0, _ => []
  | _ + 1, [] => []
  | fuel + 1, a :: as => (a :: as).take 64 :: sha256ChunksFuel fuel ((a :: as).drop 64)

def sha256Chunks (l : List Nat) : List (List Nat) :=
  sha256ChunksFuel l.length l

/-- The SHA-256 digest of a byte list, as eight 32-bit words. -/
def sha256Words (msg : List Nat) : List Nat :=
  (sha256Chunks (sha256Pad msg)).foldl sha256Block sha256Init

def hexDigit (n : Nat) : Char :=
  if n < 10 then Char.ofNat (48 + n) else Char.ofNat (87 + n)

def toHex8 (x : Nat) : String :=
  String.mk [hexDigit (x >>> 28 % 16), hexDigit (x >>> 24 % 16),
    hexDigit (x >>> 20 % 16), hexDigit (x >>> 16 % 16),
    hexDigit (x >>> 12 % 16), hexDigit (x >>> 8 % 16),
    hexDigit (x >>> 4 % 16), hexDigit (x % 16)]

/-- The lowercase hex SHA-256 digest of an ASCII string, the digest form
the registry publishes as `lfs.oid` and the spec compares
character-for-character. -/
def sha256Hex (s : String) : String :=
  String.join ((sha256Words (s.toList.map Char.toNat)).map toHex8)

/-! ## Concrete instances used in the closed statements below -/

/-- A wire on which every exchange yields the given status and body. -/
def constWire (status : Nat) (body : String) : Wire :=
  fun _ _ _ => .ok ⟨status, body, "", "", "http/1.1"⟩

/-- A server delivering the three bytes `abc` with status 200. -/
def wireAbc : Wire := constWire 200 "abc"

/-- A server answering a ranged request with a 200 full-body response. -/
def wire200body : Wire := constWire 200 "xyz"

/-- A server answering 401 on every URL. -/
def wire401 : Wire := constWire 401 ""

/-- A server answering 404 on every URL. -/
def wire404 : Wire := constWire 404 ""

/-- A server answering 500 on every URL. -/
def wire500 : Wire := constWire 500 ""

/-- A 64-character expected hash that is not the digest of `abc`. -/
def zeros64 : String :=
  "0000000000000000000000000000000000000000000000000000000000000000"

/-- A listing body with one complete, recognisable `file` entry followed by
a malformed continuation (a `,` announcing an element that never comes). -/
def badListingBody : String :=
  "[\x7b\"type\":\"file\",\"path\":\"a\",\"size\":1\x7d,"

/-- The well-formed prefix of `badListingBody`, closed properly. -/
def goodListingBody : String :=
  "[\x7b\"type\":\"file\",\"path\":\"a\",\"size\":1\x7d]"

/-- A server returning the malformed listing. -/
def wireBadListing : Wire := constWire 200 badListingBody

/-- A server returning the well-formed listing. -/
def wireGoodListing : Wire := constWire 200 goodListingBody

/-- A server whose responses advertise HTTP/3 via `Alt-Svc`. -/
def wireAltSvc : Wire :=
  fun _ _ _ => .ok ⟨200, "", "", "h3=\":443\"; ma=86400", "http/1.1"⟩

/-- A QUIC exchange that fails at the connection stage. -/
def h3ConnFail : Except HttpErrorInfo H3Raw :=
  .error ⟨.ConnectionFailed, "H3 connection failed", 0⟩

/-- A QUIC exchange that succeeds with an empty 200. -/
def h3Ok200 : Except HttpErrorInfo H3Raw := .ok ⟨200, ""⟩

/-- A task whose execution always fails, for exercising the pool model. -/
def failingTask : DLTask := ⟨⟨"f", 1, ""⟩, 0, 0, 1⟩

/-- The outcome oracle under which every task fails with `boom`. -/
def outBoom : DLTask → Option String := fun _ => some "boom"

/-! # Theorems -/

/-- Claim C1 (code bug).  The claim states that a whole-file download with
a non-empty expected hash (resume offset 0, no range) is not declared
complete unless the SHA-256 hex digest of the delivered bytes equals the
expected hash, and that a mismatch yields `ChecksumMismatch`.  The code
drops the `expected_checksum` argument on the floor: with expected hash
`zeros64`, delivered body `abc` (whose digest is not `zeros64`) and
status 200, `HttpClient::download_file` — the function both dispatch paths
(`hf_client.cpp` line 118 via `http3_client.cpp` line 101, and
`hf_client.cpp` line 319) end in — returns success, having written the
mismatching bytes; and its result is invariant in the expected checksum
altogether.  (`HttpError` does not even have a `ChecksumMismatch`
member.) -/
theorem C1_checksum_never_verified :
    (downloadFile wireAbc "https://huggingface.co/m/resolve/main/f" 0 zeros64 0).result
      = .ok () ∧
    (downloadFile wireAbc "https://huggingface.co/m/resolve/main/f" 0 zeros64 0).fileWrites
      = [(0, "abc")] ∧
    sha256Hex "abc" ≠ zeros64 ∧
    (∀ (wire : Wire) (url : String) (ro wo : Nat) (e₁ e₂ : String),
      downloadFile wire url ro e₁ wo = downloadFile wire url ro e₂ wo) :=
  ⟨rfl, rfl, by decide, fun _ _ _ _ _ _ => rfl⟩

/-- Claim C2, counterexample.  The claim requires `ProtocolError` unless
the response status is 206; here a resumed download (`resume_offset = 5`)
installs the Range header but the server's 200 full-body answer is
accepted as success — `download_file` never checks for 206. -/
theorem C2_counterexample :
    (downloadFile wire200body "https://host/f" 5 "" 0).result = .ok () ∧
    (downloadFile wire200body "https://host/f" 5 "" 0).rangeHeader = some "bytes=5-" ∧
    (200 : Nat) ≠ 206 :=
  ⟨rfl, rfl, by decide⟩

/-- Claim C2, as amended: `resume_offset > 0` installs
`Range: bytes=<resume_offset + write_offset>-` on the request, but the
status is never compared against 206 — any final status below 400
(including a 200 full-body response) is accepted as success, and statuses
`>= 400` yield `HttpStatusError` (not `ProtocolError`). -/
theorem C2_resume_range_header (wire : Wire) (url exp : String) (ro wo : Nat)
    (hro : 0 < ro) :
    (downloadFile wire url ro exp wo).rangeHeader
      = some ("bytes=" ++ toString (ro + wo) ++ "-") ∧
    (∀ r, performRequest wire "GET" url "" = .ok r →
      (r.statusCode < 400 → (downloadFile wire url ro exp wo).result = .ok ()) ∧
      (400 ≤ r.statusCode → (downloadFile wire url ro exp wo).result =
        .error ⟨.HttpStatusError, "HTTP Error " ++ toString r.statusCode, r.statusCode⟩)) := by
  constructor
  · simp only [downloadFile, if_pos hro]
    cases performRequest wire "GET" url "" with
    | error e => rfl
    | ok r =>
      dsimp only
      split <;> rfl
  · intro r hr
    constructor
    · intro hlt
      simp only [downloadFile, hr]
      rw [if_neg (by omega)]
    · intro hge
      simp only [downloadFile, hr]
      rw [if_pos hge]

/-- Witness for `C2_resume_range_header` at `resume_offset = 5`,
`write_offset = 0`, against a 200 full-body server. -/
theorem C2_resume_range_header_witness :
    (downloadFile wire200body "https://host/f" 5 "" 0).rangeHeader = some "bytes=5-" ∧
    (downloadFile wire200body "https://host/f" 5 "" 0).result = .ok () := by
  refine ⟨(C2_resume_range_header wire200body "https://host/f" "" 5 0 (by decide)).1, ?_⟩
  exact ((C2_resume_range_header wire200body "https://host/f" "" 5 0 (by decide)).2
    ⟨200, "xyz", "", "", "http/1.1"⟩ rfl).1 (by decide)

/-- Claim C7 (code bug).  The claim states that `http://` URLs bypass H3
and are completed by the H2/H1 transport as cleartext HTTP/1.1.  The
bypass is real (`Http3Client::get` goes straight to `try_http2`, attempting
no H3 and leaving the cache untouched), but the H2/H1 transport
(`HttpClient::Impl::perform_request`, `src/src/http_client.cpp`
lines 76–78) supports only HTTPS and rejects the request with
`ProtocolError` "Only HTTPS supported" before opening a socket — for every
wire and every QUIC oracle. -/
theorem C7_http_bypasses_h3_but_is_rejected :
    ∀ (wire : Wire) (h3res : Except HttpErrorInfo H3Raw) (c : Cache),
      (h3get wire h3res "" c "http://example.com/").attempts = ["h2"] ∧
      (h3get wire h3res "" c "http://example.com/").result =
        .error ⟨.ProtocolError, "Only HTTPS supported", 0⟩ ∧
      (h3get wire h3res "" c "http://example.com/").cache = c :=
  fun _ _ _ => ⟨rfl, rfl, rfl⟩

/-- Claim C8, counterexample.  The claim states that metadata statuses 401
and 403 are remapped to `AuthRequired`; in the code only 404 is remapped
(`src/src/hf_client.cpp` lines 42–54) and a 401 surfaces as
`NetworkError` carrying the underlying message. -/
theorem C8_counterexample :
    getModelInfo wire401 "m" = .error ⟨.NetworkError, "HTTP Error 401"⟩ ∧
    HFError.NetworkError ≠ HFError.AuthRequired :=
  ⟨rfl, by decide⟩

/-- Claim C8, as amended: a metadata request failing with an HTTP status
maps 404 to `ModelNotFound`; every other status `>= 400` (401 and 403
included) becomes `NetworkError` carrying the `HTTP Error <code>`
message — there is no `AuthRequired` remap. -/
theorem C8_status_remap (wire : Wire) (id : String) (r : HttpResponse)
    (hw : wire "GET" (apiUrl id) "" = .ok r) (hs : 400 ≤ r.statusCode)
    (hhttps : (parseUrlHC (apiUrl id)).protocol = "https") :
    (r.statusCode = 404 →
      getModelInfo wire id = .error ⟨.ModelNotFound, "Model \x27" ++ id ++ "\x27 not found"⟩) ∧
    (r.statusCode ≠ 404 →
      getModelInfo wire id = .error ⟨.NetworkError, "HTTP Error " ++ toString r.statusCode⟩) := by
  have hfull : getFull wire (apiUrl id) = .ok r := by
    simp only [getFull, performRequest, performRequestAux, hhttps, hw]
    rw [if_neg, if_neg]
    · omega
    · simp
  have hget : httpGet wire (apiUrl id) =
      .error ⟨.HttpStatusError, "HTTP Error " ++ toString r.statusCode, r.statusCode⟩ := by
    simp only [httpGet, hfull]
    rw [if_pos hs]
  constructor
  · intro h404
    simp [getModelInfo, hget, h404]
  · intro hne
    simp [getModelInfo, hget, hne]

/-- Witness for `C8_status_remap`: a 404 on the metadata URL becomes
`ModelNotFound`. -/
theorem C8_status_remap_witness :
    getModelInfo wire404 "m" = .error ⟨.ModelNotFound, "Model \x27m\x27 not found"⟩ :=
  (C8_status_remap wire404 "m" ⟨404, "", "", "", "http/1.1"⟩ rfl (by decide) (by decide)).1 rfl

/-- Claim C9, counterexample.  The claim states that every malformed
listing body yields a partial listing of the entries recognised before the
malformed point, with no exception and no parse error.  On a body whose
first entry is complete and well-formed but whose continuation is
malformed, `get_model_info` returns an error — not the one-entry partial
listing — so the parse is not a success at all. -/
theorem C9_counterexample :
    (getModelInfo wireBadListing "m").isOk = false :=
  rfl

/-- Claim C9, as amended: a malformed listing body makes `json::parse`
throw (`Invalid JSON`, `src/include/json.hpp` line 121); `get_model_info`
catches the exception and returns `ParseError` with no entries — the
entries recognised before the malformed point are discarded rather than
returned as a partial listing (the same prefix, properly closed, parses to
exactly that entry). -/
theorem C9_malformed_listing_is_parse_error :
    getModelInfo wireBadListing "m" =
      .error ⟨.ParseError, "Failed to parse model info: Invalid JSON"⟩ ∧
    getModelInfo wireGoodListing "m" = .ok ⟨"m", [⟨"a", 1, ""⟩]⟩ :=
  ⟨rfl, rfl⟩

/-- Claim C10: a final response with status `>= 400` is returned by
`get_full` as a success envelope, untouched; `get` and `post` map it to
`HttpStatusError` carrying the status code. -/
theorem C10_status_mapping (wire : Wire) (url pbody : String) (r : HttpResponse)
    (hget : wire "GET" url "" = .ok r) (hpost : wire "POST" url pbody = .ok r)
    (hs : 400 ≤ r.statusCode) (hhttps : (parseUrlHC url).protocol = "https") :
    getFull wire url = .ok r ∧
    httpGet wire url =
      .error ⟨.HttpStatusError, "HTTP Error " ++ toString r.statusCode, r.statusCode⟩ ∧
    httpPost wire url pbody =
      .error ⟨.HttpStatusError, "HTTP Error " ++ toString r.statusCode, r.statusCode⟩ := by
  have hfull : getFull wire url = .ok r := by
    simp only [getFull, performRequest, performRequestAux, hhttps, hget]
    rw [if_neg, if_neg]
    · omega
    · simp
  have hfullp : performRequest wire "POST" url pbody = .ok r := by
    simp only [performRequest, performRequestAux, hhttps, hpost]
    rw [if_neg, if_neg]
    · omega
    · simp
  refine ⟨hfull, ?_, ?_⟩
  · simp only [httpGet, hfull]
    rw [if_pos hs]
  · simp only [httpPost, hfullp]
    rw [if_pos hs]

/-- Witness for `C10_status_mapping` against a server answering 500. -/
theorem C10_status_mapping_witness :
    getFull wire500 "https://host/x" = .ok ⟨500, "", "", "", "http/1.1"⟩ ∧
    httpGet wire500 "https://host/x" = .error ⟨.HttpStatusError, "HTTP Error 500", 500⟩ ∧
    httpPost wire500 "https://host/x" "b" = .error ⟨.HttpStatusError, "HTTP Error 500", 500⟩ :=
  C10_status_mapping wire500 "https://host/x" "b" ⟨500, "", "", "", "http/1.1"⟩
    rfl rfl (by decide) (by decide)

/-! ### Chunk-loop lemmas for claim C3 -/

theorem chunkLoopFuel_nil (fuel : Nat) (f : ModelFile) (start : Nat)
    (h : ¬ start < f.size) : chunkLoopFuel fuel f start = [] := by
  cases fuel <;> simp [chunkLoopFuel, h]

theorem chunkLoopFuel_cons (n : Nat) (f : ModelFile) (start : Nat)
    (hs : start < f.size) :
    chunkLoopFuel (n + 1) f start =
      mkChunk f start :: chunkLoopFuel n f (start + CHUNK_SIZE) := by
  simp [chunkLoopFuel, hs]

theorem chunkLoopFuel_length (f : ModelFile) :
    ∀ (fuel start : Nat), f.size ≤ start + fuel → start < f.size →
      (chunkLoopFuel fuel f start).length = (f.size - start + CHUNK_SIZE - 1) / CHUNK_SIZE := by
  intro fuel
  induction fuel with
  | zero => intro start hf hs; omega
  | succ n ih =>
    intro start hf hs
    have hcs : 0 < CHUNK_SIZE := by decide
    rw [chunkLoopFuel_cons n f start hs]
    simp only [List.length_cons]
    by_cases h2 : start + CHUNK_SIZE < f.size
    · rw [ih (start + CHUNK_SIZE) (by omega) h2]
      have heq : f.size - start + CHUNK_SIZE - 1 =
          (f.size - (start + CHUNK_SIZE) + CHUNK_SIZE - 1) + CHUNK_SIZE := by omega
      rw [heq, Nat.add_div_right _ hcs]
    · rw [chunkLoopFuel_nil n f (start + CHUNK_SIZE) h2]
      have h3 : 1 * CHUNK_SIZE ≤ f.size - start + CHUNK_SIZE - 1 := by omega
      have h4 : f.size - start + CHUNK_SIZE - 1 < (1 + 1) * CHUNK_SIZE := by omega
      rw [List.length_nil, Nat.div_eq_of_lt_le h3 h4]

theorem chunkLoopFuel_get (f : ModelFile) :
    ∀ (fuel start : Nat), f.size ≤ start + fuel →
      ∀ (i : Nat) (h : i < (chunkLoopFuel fuel f start).length),
        (chunkLoopFuel fuel f start).get ⟨i, h⟩ = mkChunk f (start + i * CHUNK_SIZE) ∧
        start + i * CHUNK_SIZE < f.size := by
  intro fuel
  induction fuel with
  | zero => intro start hf i h; simp [chunkLoopFuel] at h
  | succ n ih =>
    intro start hf i h
    have hcs : 0 < CHUNK_SIZE := by decide
    by_cases hs : start < f.size
    · revert h
      rw [chunkLoopFuel_cons n f start hs]
      intro h
      cases i with
      | zero => simpa using hs
      | succ j =>
        simp only [List.length_cons] at h
        have h' : j < (chunkLoopFuel n f (start + CHUNK_SIZE)).length := by omega
        have step := ih (start + CHUNK_SIZE) (by omega) j h'
        rw [List.get_cons_succ, step.1]
        constructor
        · congr 1
          ring
        · have := step.2
          have harith : start + CHUNK_SIZE + j * CHUNK_SIZE =
              start + (j + 1) * CHUNK_SIZE := by ring
          omega
    · exfalso
      rw [chunkLoopFuel_nil _ _ _ hs] at h
      simp at h

/-- Claim C3: a listing entry larger than the 250 MiB chunking threshold is
split into exactly `ceil(size / CHUNK_SIZE)` chunk tasks, each 100 MiB
except possibly the last, the `i`-th starting at `i * CHUNK_SIZE`, and each
dispatched (worker body, `hf_client.cpp` line 319) with write offset equal
to its range start, an empty expected checksum and resume offset 0; an
entry of at most the threshold — 250 MiB exactly included — yields one
whole-file task and no chunks. -/
theorem C3_chunk_planning (f : ModelFile) :
    (CHUNK_THRESHOLD < f.size →
      (planFile f).length = (f.size + CHUNK_SIZE - 1) / CHUNK_SIZE ∧
      (∀ (i : Nat) (h : i < (planFile f).length),
        ((planFile f).get ⟨i, h⟩).rangeStart = i * CHUNK_SIZE ∧
        ((planFile f).get ⟨i, h⟩).chunkSize = min CHUNK_SIZE (f.size - i * CHUNK_SIZE) ∧
        (i + 1 < (planFile f).length → ((planFile f).get ⟨i, h⟩).chunkSize = CHUNK_SIZE) ∧
        (dispatchTask ((planFile f).get ⟨i, h⟩)).writeOffset =
          ((planFile f).get ⟨i, h⟩).rangeStart ∧
        (dispatchTask ((planFile f).get ⟨i, h⟩)).expected = "" ∧
        (dispatchTask ((planFile f).get ⟨i, h⟩)).resumeOffset = 0)) ∧
    (f.size ≤ CHUNK_THRESHOLD → planFile f = [⟨f, 0, 0, f.size⟩]) := by
  have hcs : 0 < CHUNK_SIZE := by decide
  constructor
  · intro hbig
    have hpos : 0 < f.size := by
      have : (0 : Nat) < CHUNK_THRESHOLD := by decide
      omega
    have hplan : planFile f = chunkLoopFuel f.size f 0 := by
      simp [planFile, hbig]
    rw [hplan]
    constructor
    · rw [chunkLoopFuel_length f f.size 0 (by omega) hpos]
      simp
    · intro i h
      have hmain := chunkLoopFuel_get f f.size 0 (by omega) i h
      have hlt : i * CHUNK_SIZE < f.size := by
        have := hmain.2
        omega
      rw [hmain.1]
      refine ⟨by simp [mkChunk], ?_, ?_, by simp [dispatchTask], by simp [dispatchTask],
        by simp [dispatchTask]⟩
      · simp only [mkChunk, Nat.zero_add]
        omega
      · intro hnext
        have hnextlt := (chunkLoopFuel_get f f.size 0 (by omega) (i + 1) hnext).2
        simp only [mkChunk, Nat.zero_add]
        have h1 : (i + 1) * CHUNK_SIZE < f.size := by omega
        have h2 : i * CHUNK_SIZE + CHUNK_SIZE < f.size := by
          have hh : (i + 1) * CHUNK_SIZE = i * CHUNK_SIZE + CHUNK_SIZE := by ring
          omega
        omega
  · intro hsmall
    simp [planFile, Nat.not_lt.mpr hsmall]

/-- Witness for `C3_chunk_planning`: a 400 MiB file is split into 4 chunks
(the ceiling of 400/100), while a file of exactly 250 MiB produces the
single whole-file task. -/
theorem C3_chunk_planning_witness :
    (planFile ⟨"w400", 419430400, ""⟩).length = (419430400 + CHUNK_SIZE - 1) / CHUNK_SIZE ∧
    planFile ⟨"w250", 262144000, ""⟩ = [⟨⟨"w250", 262144000, ""⟩, 0, 0, 262144000⟩] :=
  ⟨((C3_chunk_planning ⟨"w400", 419430400, ""⟩).1 (by decide)).1,
   (C3_chunk_planning ⟨"w250", 262144000, ""⟩).2 (by decide)⟩

/-! ### Planner lemmas for claim C4 -/

theorem mem_insertDesc (x y : ModelFile) (l : List ModelFile) :
    x ∈ insertDesc y l ↔ x = y ∨ x ∈ l := by
  induction l with
  | nil => simp [insertDesc]
  | cons z zs ih =>
    by_cases h : y.size > z.size
    · simp [insertDesc, h]
    · simp [insertDesc, h, ih]
      tauto

theorem mem_sortFilesDesc (x : ModelFile) (l : List ModelFile) :
    x ∈ sortFilesDesc l ↔ x ∈ l := by
  induction l with
  | nil => simp [sortFilesDesc]
  | cons y ys ih => simp [sortFilesDesc, mem_insertDesc, ih]

theorem splitFiles_toDownload_mismatch (fs : LocalFs) :
    ∀ (l : List ModelFile) (g : ModelFile), g ∈ (splitFiles fs l).1 →
      fs g.filename ≠ some g.size := by
  intro l
  induction l with
  | nil => simp [splitFiles]
  | cons f rest ih =>
    intro g hg
    by_cases h : fs f.filename = some f.size
    · simp only [splitFiles, h, if_pos] at hg
      exact ih g hg
    · simp only [splitFiles, h, if_neg, not_false_iff, List.mem_cons] at hg
      rcases hg with hg | hg
      · rw [hg]; exact h
      · exact ih g hg

theorem splitFiles_cover (fs : LocalFs) :
    ∀ (l : List ModelFile) (g : ModelFile), g ∈ l →
      g ∈ (splitFiles fs l).1 ∨ g ∈ (splitFiles fs l).2 := by
  intro l
  induction l with
  | nil => simp
  | cons f rest ih =>
    intro g hg
    rcases List.mem_cons.mp hg with hg | hg
    · by_cases h : fs f.filename = some f.size
      · right; simp [splitFiles, h, hg]
      · left; simp [splitFiles, h, hg]
    · rcases ih g hg with h1 | h1
      · left
        by_cases h : fs f.filename = some f.size <;> simp [splitFiles, h, h1]
      · right
        by_cases h : fs f.filename = some f.size <;> simp [splitFiles, h, h1]

theorem splitFiles_all_match (fs : LocalFs) :
    ∀ (l : List ModelFile), (∀ g ∈ l, fs g.filename = some g.size) →
      splitFiles fs l = ([], l) := by
  intro l
  induction l with
  | nil => simp [splitFiles]
  | cons f rest ih =>
    intro hall
    have hf := hall f (List.mem_cons_self f rest)
    have hrest := ih (fun g hg => hall g (List.mem_cons_of_mem f hg))
    simp [splitFiles, hrest, hf]

theorem chunkLoopFuel_file (f : ModelFile) :
    ∀ (fuel start : Nat) (t : DLTask), t ∈ chunkLoopFuel fuel f start → t.file = f := by
  intro fuel
  induction fuel with
  | zero => simp [chunkLoopFuel]
  | succ n ih =>
    intro start t ht
    by_cases hs : start < f.size
    · rw [chunkLoopFuel_cons n f start hs] at ht
      rcases List.mem_cons.mp ht with h | h
      · rw [h]; rfl
      · exact ih (start + CHUNK_SIZE) t h
    · rw [chunkLoopFuel_nil _ _ _ hs] at ht
      simp at ht

theorem planFile_file (g : ModelFile) (t : DLTask) (ht : t ∈ planFile g) :
    t.file = g := by
  by_cases h : g.size > CHUNK_THRESHOLD
  · simp only [planFile, h, if_pos] at ht
    exact chunkLoopFuel_file g g.size 0 t ht
  · simp only [planFile, h, if_neg, not_false_iff, List.mem_singleton] at ht
    rw [ht]

theorem mem_queue_file (l : List ModelFile) (t : DLTask)
    (ht : t ∈ (l.map planFile).flatten) : t.file ∈ l := by
  rcases List.mem_flatten.mp ht with ⟨sub, hsub, htsub⟩
  rcases List.mem_map.mp hsub with ⟨g, hg, hplan⟩
  rw [← hplan] at htsub
  rw [planFile_file g t htsub]
  exact hg

theorem find?_filename_of_nodup :
    ∀ (l : List ModelFile), (l.map ModelFile.filename).Nodup →
      ∀ f ∈ l, l.find? (fun g => g.filename == f.filename) = some f := by
  intro l
  induction l with
  | nil => simp
  | cons g gs ih =>
    intro hnodup f hf
    simp only [List.map_cons, List.nodup_cons] at hnodup
    rcases List.mem_cons.mp hf with hf | hf
    · rw [hf]
      simp [List.find?]
    · have hne : g.filename ≠ f.filename := by
        intro heq
        exact hnodup.1 (heq ▸ List.mem_map_of_mem ModelFile.filename hf)
      have hbeq : (g.filename == f.filename) = false := beq_eq_false_iff_ne.mpr hne
      simp only [List.find?_cons, hbeq, cond_false]
      exact ih hnodup.2 f hf

/-- Claim C4: an entry whose destination file already exists with the listed
size is marked satisfied (placed in `already_downloaded`, its bytes counted
into the initial progress total) and no task is scheduled for it; when
every entry is satisfied — as after a successful run against an unchanged
remote, modelled by `afterRun` — the planner queues nothing, transfers 0
bytes and issues no `write_at`. -/
theorem C4_skip_satisfied (fs : LocalFs) (files : List ModelFile) :
    (∀ f, f ∈ files → fs f.filename = some f.size →
      f ∈ (planModel fs files).already ∧
      f ∉ (planModel fs files).toDownload ∧
      (∀ t, t ∈ (planModel fs files).queue → t.file ≠ f)) ∧
    ((∀ f, f ∈ files → fs f.filename = some f.size) →
      (planModel fs files).toDownload = [] ∧
      (planModel fs files).queue = [] ∧
      queuedBytes (planModel fs files) = 0 ∧
      (∀ (wire : Wire) (mid : String), runWrites wire mid (planModel fs files) = []) ∧
      (planModel fs files).alreadyBytes = (planModel fs files).totalBytes) ∧
    ((files.map ModelFile.filename).Nodup →
      (planModel (afterRun fs files) files).queue = [] ∧
      queuedBytes (planModel (afterRun fs files) files) = 0) := by
  have key : ∀ (fs' : LocalFs), (∀ f ∈ files, fs' f.filename = some f.size) →
      (planModel fs' files).toDownload = [] ∧
      (planModel fs' files).queue = [] ∧
      queuedBytes (planModel fs' files) = 0 ∧
      (∀ (wire : Wire) (mid : String), runWrites wire mid (planModel fs' files) = []) ∧
      (planModel fs' files).alreadyBytes = (planModel fs' files).totalBytes := by
    intro fs' hall
    have hsorted : ∀ g ∈ sortFilesDesc files, fs' g.filename = some g.size :=
      fun g hg => hall g ((mem_sortFilesDesc g files).mp hg)
    have hsplit := splitFiles_all_match fs' (sortFilesDesc files) hsorted
    refine ⟨?_, ?_, ?_, ?_, ?_⟩ <;>
      simp [planModel, queuedBytes, runWrites, hsplit]
  refine ⟨?_, fun hall => key fs hall, ?_⟩
  · intro f hf hmatch
    have hfsorted : f ∈ sortFilesDesc files := (mem_sortFilesDesc f files).mpr hf
    have hnotdl : f ∉ (planModel fs files).toDownload := by
      intro hmem
      have : f ∈ (splitFiles fs (sortFilesDesc files)).1 := by
        simpa [planModel] using hmem
      exact splitFiles_toDownload_mismatch fs (sortFilesDesc files) f this hmatch
    refine ⟨?_, hnotdl, ?_⟩
    · rcases splitFiles_cover fs (sortFilesDesc files) f hfsorted with h1 | h1
      · exact absurd (by simpa [planModel] using h1) hnotdl
      · simpa [planModel] using h1
    · intro t ht heq
      have htd : t.file ∈ (planModel fs files).toDownload := by
        have : t ∈ (((planModel fs files).toDownload).map planFile).flatten := by
          simpa [planModel] using ht
        have := mem_queue_file ((planModel fs files).toDownload) t this
        exact this
      rw [heq] at htd
      exact hnotdl htd
  · intro hnodup
    have hall : ∀ f ∈ files, afterRun fs files f.filename = some f.size := by
      intro f hf
      simp only [afterRun]
      rw [find?_filename_of_nodup files hnodup f hf]
    have := key (afterRun fs files) hall
    exact ⟨this.2.1, this.2.2.1⟩

/-- Witness for `C4_skip_satisfied`: a two-file listing against a file
system that already holds both files at their listed sizes — nothing is
queued, and a listing where the second file is absent — the absent file is
not marked satisfied while the present one is. -/
theorem C4_skip_satisfied_witness :
    (⟨"a", 5, ""⟩ : ModelFile) ∈
      (planModel (fun p => if p = "a" then some 5 else some 9)
        [⟨"a", 5, ""⟩, ⟨"b", 9, ""⟩]).already ∧
    (planModel (fun p => if p = "a" then some 5 else some 9)
        [⟨"a", 5, ""⟩, ⟨"b", 9, ""⟩]).queue = [] ∧
    queuedBytes (planModel (fun p => if p = "a" then some 5 else some 9)
        [⟨"a", 5, ""⟩, ⟨"b", 9, ""⟩]) = 0 :=
  ⟨((C4_skip_satisfied (fun p => if p = "a" then some 5 else some 9)
      [⟨"a", 5, ""⟩, ⟨"b", 9, ""⟩]).1 ⟨"a", 5, ""⟩ (by decide) (by decide)).1,
   (((C4_skip_satisfied (fun p => if p = "a" then some 5 else some 9)
      [⟨"a", 5, ""⟩, ⟨"b", 9, ""⟩]).2.1 (by decide)).2.1),
   (((C4_skip_satisfied (fun p => if p = "a" then some 5 else some 9)
      [⟨"a", 5, ""⟩, ⟨"b", 9, ""⟩]).2.1 (by decide)).2.2.1)⟩

/-! ### Protocol-cache lemmas for claim C5 -/

theorem cacheGet_set_self (c : Cache) (h v : String) :
    cacheGet (cacheSet c h v) h = some v := by
  have hnone : (cacheErase c h).find? (fun p => p.1 == h) = none := by
    rw [List.find?_eq_none]
    intro x hx
    have hmem := List.of_mem_filter hx
    simp only [decide_not, Bool.not_eq_true', decide_eq_false_iff_not] at hmem
    simp [hmem]
  simp [cacheGet, cacheSet, List.find?_append, hnone, List.find?]

theorem h1Phase_attempts (wire : Wire) (url : String) (c : Cache) (host : String)
    (att : List String) : (h1Phase wire url c host att).attempts = att := by
  unfold h1Phase
  cases tryHttp1 wire url with
  | error e => rfl
  | ok r =>
    dsimp only
    split <;> rfl

theorem h1Phase_cache_ok (wire : Wire) (url : String) (c : Cache) (host : String)
    (att : List String) (r : HttpResponse) (ho : tryHttp1 wire url = .ok r)
    (ha : r.altSvc ≠ "") (hc : containsSub "h3" r.altSvc = true) :
    (h1Phase wire url c host att).cache = cacheSet c host "h3" := by
  simp only [h1Phase, ho]
  rw [if_pos (show r.altSvc ≠ "" ∧ containsSub "h3" r.altSvc = true from ⟨ha, hc⟩)]
  split <;> rfl

theorem h3get_no_force (wire : Wire) (h3res : Except HttpErrorInfo H3Raw)
    (c : Cache) (url : String)
    (hscheme : "http://".toList.isPrefixOf url.toList = false) :
    h3get wire h3res "" c url =
      (if cacheGet c (parseUrlH3 url).1 = some "h3" then
        match tryHttp3 h3res with
        | .ok r => ⟨.ok r, c, ["h3"]⟩
        | .error _ =>
          h1Phase wire url (cacheErase c (parseUrlH3 url).1) (parseUrlH3 url).1 ["h3", "h1"]
      else h1Phase wire url c (parseUrlH3 url).1 ["h1"]) := by
  have hs' : ("http://".toList.isPrefixOf url.toList) ≠ true := by
    rw [hscheme]
    exact Bool.false_ne_true
  simp only [h3get]
  rw [if_neg hs', if_neg (by decide : ¬(("" : String) = "h3")),
    if_neg (by decide : ¬(("" : String) = "h2")), if_neg (by decide : ¬(("" : String) ≠ ""))]

theorem h3get_cache_h3_head (wire : Wire) (h3res : Except HttpErrorInfo H3Raw)
    (c : Cache) (url : String)
    (hscheme : "http://".toList.isPrefixOf url.toList = false)
    (hcache : cacheGet c (parseUrlH3 url).1 = some "h3") :
    (h3get wire h3res "" c url).attempts.head? = some "h3" := by
  rw [h3get_no_force wire h3res c url hscheme, if_pos hcache]
  cases tryHttp3 h3res with
  | error e =>
    rw [h1Phase_attempts]
    rfl
  | ok r => rfl

/-- Claim C5: with no forced protocol and an `https` URL, a cache entry
`h3` for the host makes the request attempt H3 first; if the H3 attempt
fails, the entry is evicted and the request falls through to the H2/H1
phase on the evicted cache; whenever the H2/H1 attempt is reached and its
response carries a non-empty `Alt-Svc` containing `h3`, the mapping
`host → h3` is written into the cache, so the next request to that host
attempts H3 first. -/
theorem C5_cache_and_altsvc (wire : Wire) (h3res : Except HttpErrorInfo H3Raw)
    (c : Cache) (url : String)
    (hscheme : "http://".toList.isPrefixOf url.toList = false) :
    (cacheGet c (parseUrlH3 url).1 = some "h3" →
      (h3get wire h3res "" c url).attempts.head? = some "h3" ∧
      (∀ e, tryHttp3 h3res = .error e →
        h3get wire h3res "" c url =
          h1Phase wire url (cacheErase c (parseUrlH3 url).1) (parseUrlH3 url).1
            ["h3", "h1"])) ∧
    (∀ r, tryHttp1 wire url = .ok r → r.altSvc ≠ "" →
      containsSub "h3" r.altSvc = true →
      (cacheGet c (parseUrlH3 url).1 ≠ some "h3" ∨ (∃ e, tryHttp3 h3res = .error e)) →
      cacheGet (h3get wire h3res "" c url).cache (parseUrlH3 url).1 = some "h3" ∧
      (∀ h3res2, (h3get wire h3res2 "" (h3get wire h3res "" c url).cache url).attempts.head?
        = some "h3")) := by
  constructor
  · intro hcache
    refine ⟨h3get_cache_h3_head wire h3res c url hscheme hcache, ?_⟩
    intro e he
    rw [h3get_no_force wire h3res c url hscheme, if_pos hcache, he]
  · intro r ho ha hc hreach
    have hcache' : (h3get wire h3res "" c url).cache =
        cacheSet (if cacheGet c (parseUrlH3 url).1 = some "h3" then
          cacheErase c (parseUrlH3 url).1 else c) (parseUrlH3 url).1 "h3" := by
      rw [h3get_no_force wire h3res c url hscheme]
      by_cases hcc : cacheGet c (parseUrlH3 url).1 = some "h3"
      · rw [if_pos hcc, if_pos hcc]
        rcases hreach with hre | ⟨e, he⟩
        · exact absurd hcc hre
        · rw [he]
          exact h1Phase_cache_ok wire url _ _ _ r ho ha hc
      · rw [if_neg hcc, if_neg hcc]
        exact h1Phase_cache_ok wire url _ _ _ r ho ha hc
    have hgethost : cacheGet (h3get wire h3res "" c url).cache (parseUrlH3 url).1
        = some "h3" := by
      rw [hcache']
      exact cacheGet_set_self _ _ _
    exact ⟨hgethost, fun h3res2 =>
      h3get_cache_h3_head wire h3res2 _ url hscheme hgethost⟩

/-- Witness for `C5_cache_and_altsvc`: a host cached as `h3` whose QUIC
connection fails; the request falls back, the H1 response advertises
`h3=":443"`, and the cache again maps the host to `h3`. -/
theorem C5_cache_and_altsvc_witness :
    (h3get wireAltSvc h3ConnFail "" [("host", "h3")] "https://host/x").attempts.head?
      = some "h3" ∧
    cacheGet (h3get wireAltSvc h3ConnFail "" [("host", "h3")] "https://host/x").cache
      "host" = some "h3" :=
  ⟨((C5_cache_and_altsvc wireAltSvc h3ConnFail [("host", "h3")] "https://host/x"
      (by decide)).1 (by decide)).1,
   (((C5_cache_and_altsvc wireAltSvc h3ConnFail [("host", "h3")] "https://host/x"
      (by decide)).2 ⟨200, "", "", "h3=\":443\"; ma=86400", "http/1.1"⟩ rfl
      (by decide) (by decide)
      (Or.inr ⟨⟨.ConnectionFailed, "H3 connection failed", 0⟩, rfl⟩))).1⟩

/-- Claim C6: along every interleaving of the worker pool from its launch
state, (i) the `has_error` flag and `first_error` are set together — one is
set exactly when the other is; (ii) once `first_error` is recorded no step
changes it and the flag stays set; (iii) the one step that records
`first_error` is the CAS of the first failing task — it flips the flag from
clear to set and stores that task's own error; (iv) a step that shrinks the
queue (a dequeue) only happens while the flag is clear; (v) the final
status handed to the caller is success when the flag is clear and the
recorded `first_error` when it is set. -/
theorem C6_first_failure (out : DLTask → Option String) (q : List DLTask) (n : Nat)
    (s : PoolState) (hreach : PoolReach out (initPool q n) s) :
    (s.hasError = true ↔ s.firstError.isSome = true) ∧
    (∀ s', PoolStep out s s' → ∀ e, s.firstError = some e →
      s'.firstError = some e ∧ s'.hasError = true) ∧
    (∀ s', PoolStep out s s' → s.firstError = none → s'.firstError ≠ none →
      s.hasError = false ∧ s'.hasError = true ∧
      ∃ (i : Fin s.workers.length) (t : DLTask),
        s.workers.get i = .running t ∧ out t = s'.firstError) ∧
    (∀ s', PoolStep out s s' → s'.queue.length < s.queue.length → s.hasError = false) ∧
    (s.hasError = false → finalResult s = .ok ()) ∧
    (∀ e, s.firstError = some e → finalResult s = .error e) := by
  have inv : s.hasError = true ↔ s.firstError.isSome = true := by
    induction hreach with
    | refl => simp [initPool]
    | tail hab hbc ih =>
      cases hbc with
      | dequeue i t rest hw hf hq => simpa using ih
      | exitEmpty i hw hq => simpa using ih
      | exitFlag i hw hf => simpa using ih
      | finishOk i t hw ho => simpa using ih
      | finishFailWin i t msg hw ho hf => simp
      | finishFailLose i t msg hw ho hf => simpa using ih
  refine ⟨inv, ?_, ?_, ?_, ?_, ?_⟩
  · intro s' hstep e he
    have hs : s.hasError = true := inv.mpr (by simp [he])
    cases hstep with
    | dequeue i t rest hw hf hq => rw [hf] at hs; exact absurd hs (by simp)
    | exitEmpty i hw hq => exact ⟨he, hs⟩
    | exitFlag i hw hf => exact ⟨he, hf⟩
    | finishOk i t hw ho => exact ⟨he, hs⟩
    | finishFailWin i t msg hw ho hf => rw [hf] at hs; exact absurd hs (by simp)
    | finishFailLose i t msg hw ho hf => exact ⟨he, hf⟩
  · intro s' hstep hnone hsome
    cases hstep with
    | dequeue i t rest hw hf hq => exact absurd hnone hsome
    | exitEmpty i hw hq => exact absurd hnone hsome
    | exitFlag i hw hf => exact absurd hnone hsome
    | finishOk i t hw ho => exact absurd hnone hsome
    | finishFailWin i t msg hw ho hf =>
      exact ⟨hf, rfl, ⟨i, t, hw, by simp [ho]⟩⟩
    | finishFailLose i t msg hw ho hf => exact absurd hnone hsome
  · intro s' hstep hlen
    cases hstep with
    | dequeue i t rest hw hf hq => exact hf
    | exitEmpty i hw hq => simp at hlen
    | exitFlag i hw hf => simp at hlen
    | finishOk i t hw ho => simp at hlen
    | finishFailWin i t msg hw ho hf => simp at hlen
    | finishFailLose i t msg hw ho hf => simp at hlen
  · intro hf
    simp [finalResult, hf]
  · intro e he
    have hs : s.hasError = true := inv.mpr (by simp [he])
    simp [finalResult, hs, he]

/-- Witness for `C6_first_failure`: one worker, one failing task.  The
trace `launch → dequeue → CAS-win` reaches the terminal state whose final
status, by the theorem, is the failing task's message. -/
theorem C6_first_failure_witness :
    finalResult ⟨[], true, some "boom", [.done]⟩ = .error "boom" := by
  have step1 : PoolStep outBoom (initPool [failingTask] 1)
      ⟨[], false, none, [.running failingTask]⟩ :=
    PoolStep.dequeue (initPool [failingTask] 1) ⟨0, by decide⟩ failingTask [] rfl rfl rfl
  have step2 : PoolStep outBoom ⟨[], false, none, [.running failingTask]⟩
      ⟨[], true, some "boom", [.done]⟩ :=
    PoolStep.finishFailWin ⟨[], false, none, [.running failingTask]⟩ ⟨0, by decide⟩
      failingTask "boom" rfl rfl rfl
  have hreach : PoolReach outBoom (initPool [failingTask] 1)
      ⟨[], true, some "boom", [.done]⟩ :=
    Relation.ReflTransGen.tail (Relation.ReflTransGen.tail Relation.ReflTransGen.refl step1)
      step2
  exact (C6_first_failure outBoom [failingTask] 1 _ hreach).2.2.2.2.2 "boom" rfl

end Hfdown
